import Mathlib

/-!
Verification of the resilient content-acquisition engine in `src/app.py`
(`AntiDetectionManager`, `YouTubeContentScraper`, and the orchestrating
`content_scraping_page`).  The Python code is shallowly embedded: pure string
processing is translated to functions on `List Char`, and every stateful or
network-facing call is replaced by an explicit "world" record that fixes the
outcome of each external operation, so the control flow of the source —
fallback order, exception handlers, resource lifecycle — is reproduced
faithfully and executable.  Strings are lists of characters; Python `None` /
exceptions become `Option` / `Except String`.
-/

namespace App

/-! ## Generic character-list utilities

These model the Python `str` operations the scraper uses: substring test
(`in`), `str.split(sep, 1)` style first-occurrence splitting, `str.split(sep)`
full splitting, prefix test, and `str.replace`.
-/

/-- `leadsWith needle hay` is true iff `needle` is an initial segment of
`hay` (Python `hay.startswith(needle)`). -/
def leadsWith : List Char → List Char → Bool
  | [], _ => true
  | _ :: _, [] => false
  | x :: xs, y :: ys => if x = y then leadsWith xs ys else false

/-- `containsSub hay needle` models Python `needle in hay`. -/
def containsSub : List Char → List Char → Bool
  | [], needle => leadsWith needle []
  | x :: t, needle => leadsWith needle (x :: t) || containsSub t needle

/-- `breakAtFirst c l` splits `l` at the first occurrence of character `c`:
it returns the part before it, and `some` of the part after it (or `none`
when `c` does not occur).  This models Python `l.split(c, 1)`. -/
def breakAtFirst (c : Char) : List Char → List Char × Option (List Char)
  | [] => ([], none)
  | x :: xs =>
    if x = c then ([], some xs)
    else (x :: (breakAtFirst c xs).1, (breakAtFirst c xs).2)

/-- Python `l.split(c)`: full split at every occurrence of `c`.  The result
is always non-empty (`''.split(c) == ['']`). -/
def splitSep (c : Char) : List Char → List (List Char)
  | [] => [[]]
  | x :: xs =>
    if x = c then [] :: splitSep c xs
    else
      match splitSep c xs with
      | [] => [[x]]
      | f :: rest => (x :: f) :: rest

/-- Everything after the first occurrence of the (non-empty) separator
sequence `sep`, or `none` if `sep` does not occur.  Used to model
`s.split(sep)[1]` together with `beforeFirstSeq`. -/
def afterFirstSeq (sep : List Char) : List Char → Option (List Char)
  | [] => none
  | x :: xs =>
    if leadsWith sep (x :: xs) then some ((x :: xs).drop sep.length)
    else afterFirstSeq sep xs

/-- The part of `l` before the first occurrence of the separator sequence
`sep` (all of `l` when `sep` does not occur). -/
def beforeFirstSeq (sep : List Char) : List Char → List Char
  | [] => []
  | x :: xs =>
    if leadsWith sep (x :: xs) then []
    else x :: beforeFirstSeq sep xs

/-- Python `s.split(sep)[1]` for a multi-character separator: the text strictly
between the first occurrence of `sep` and the following occurrence (if any).
The source only evaluates this under a `sep in s` guard, so the `none` case of
`afterFirstSeq` (where Python would raise `IndexError`) is mapped to `[]` and
is unreachable in the guarded call sites. -/
def splitIdx1 (hay sep : List Char) : List Char :=
  match afterFirstSeq sep hay with
  | some rest => beforeFirstSeq sep rest
  | none => []

/-- Python `s.replace(pat, rep)`: non-overlapping, left-to-right replacement
of every occurrence.  `pat` is non-empty at every call site. -/
def replaceSeq (pat rep : List Char) : List Char → List Char
  | [] => []
  | x :: xs =>
    if pat ≠ [] ∧ leadsWith pat (x :: xs) then
      rep ++ replaceSeq pat rep (xs.drop (pat.length - 1))
    else
      x :: replaceSeq pat rep xs
  termination_by l => l.length
  decreasing_by
    · simp only [List.length_cons]
      have := List.length_drop (pat.length - 1) xs
      omega
    · simp

/-- Python `s.endswith(suffixStr)`. -/
def endsWithSeq (l tailSeq : List Char) : Bool :=
  leadsWith tailSeq.reverse l.reverse

/-! ## A model of `urllib.parse.urlparse`

Only the fields the scraper reads (`netloc`, `path`, `query`) are produced.
The model follows CPython `urlsplit`/`urlparse`: optional `scheme:` removal
(first character ASCII-alphabetic, scheme characters alphanumeric or `+-.`),
`//netloc` up to the next `/?#`, fragment split at the first `#`, query split
at the first `?`, and `;params` removal from the last path segment when the
scheme is in `uses_params`. -/

def schemeChar (c : Char) : Bool :=
  c.isAlphanum || c = '+' || c = '-' || c = '.'

/-- Scan for `scheme:`: succeeds iff a `:` is reached over scheme characters,
returning the scheme text and the remainder. -/
def schemeSplit : List Char → Option (List Char × List Char)
  | [] => none
  | x :: xs =>
    if x = ':' then some ([], xs)
    else if schemeChar x then
      match schemeSplit xs with
      | some (s, r) => some (x :: s, r)
      | none => none
    else none

/-- CPython: a scheme is recognised only when the text before the first `:`
consists of scheme characters and starts with an ASCII letter; the scheme is
lowercased. -/
def splitScheme (url : List Char) : List Char × List Char :=
  match url with
  | [] => ([], [])
  | x :: xs =>
    if x.isAlpha then
      match schemeSplit (x :: xs) with
      | some (s, r) => (s.map Char.toLower, r)
      | none => ([], x :: xs)
    else ([], x :: xs)

def notNetDelim (c : Char) : Bool :=
  !(c = '/' || c = '?' || c = '#')

/-- CPython `uses_params` (the schemes for which `;params` is split from the
last path segment); the empty scheme is a member. -/
def usesParamsScheme (s : List Char) : Bool :=
  s = [] || s = "ftp".data || s = "hdl".data || s = "prospero".data ||
  s = "http".data || s = "imap".data || s = "https".data || s = "shttp".data ||
  s = "rtsp".data || s = "rtspu".data || s = "sip".data || s = "sips".data ||
  s = "mms".data || s = "sftp".data || s = "tel".data

/-- CPython `_splitparams`, called only when `;` occurs in the path: cut the
path at the first `;` that occurs at or after the last `/`. -/
def splitParams (p : List Char) : List Char :=
  if containsSub p ['/'] then
    match breakAtFirst '/' p.reverse with
    | (revAfter, some revBefore) =>
      let before := revBefore.reverse
      let afterSeg := revAfter.reverse
      if containsSub afterSeg [';'] then
        before ++ '/' :: (breakAtFirst ';' afterSeg).1
      else p
    | (_, none) => p
  else (breakAtFirst ';' p).1

structure UrlParts where
  netloc : List Char
  path : List Char
  query : List Char
deriving Repr, DecidableEq

/-- Params removal applied to the raw path: `;params` is cut from the last
segment when the scheme uses params and a `;` occurs. -/
def pathParamsCut (scheme p : List Char) : List Char :=
  if containsSub p [';'] && usesParamsScheme scheme then splitParams p else p

/-- The fragment / query / params stages of `urlparse`, applied to the text
following the netloc. -/
def parseAfterNetloc (scheme netloc rest1 : List Char) : UrlParts :=
  ⟨netloc,
    pathParamsCut scheme (breakAtFirst '?' (breakAtFirst '#' rest1).1).1,
    ((breakAtFirst '?' (breakAtFirst '#' rest1).1).2).getD []⟩

/-- The `(netloc, path, query)` triple of `urllib.parse.urlparse`. -/
def urlparseNPQ (url : List Char) : UrlParts :=
  if leadsWith ['/', '/'] (splitScheme url).2 then
    parseAfterNetloc (splitScheme url).1
      (((splitScheme url).2.drop 2).takeWhile notNetDelim)
      (((splitScheme url).2.drop 2).dropWhile notNetDelim)
  else
    parseAfterNetloc (splitScheme url).1 [] (splitScheme url).2

/-! ## A model of `urllib.parse.parse_qs(query).get('v', [None])[0]`

`parse_qs` splits the query at `&`, drops fields without `=` or with an empty
value, percent-decodes names and values after turning `+` into a space, and
the source then takes the first value registered under the key `v`.
Multi-byte UTF-8 percent-escapes are decoded bytewise here; every value the
claims touch is ASCII, where this coincides with CPython. -/

def hexDigit (c : Char) : Option Nat :=
  if c.isDigit then some (c.toNat - 48)
  else if 'a' ≤ c ∧ c ≤ 'f' then some (c.toNat - 87)
  else if 'A' ≤ c ∧ c ≤ 'F' then some (c.toNat - 55)
  else none

/-- Percent-decoding as in `urllib.parse.unquote`: `%hh` with two hex digits
becomes the corresponding character; a malformed escape is kept verbatim. -/
def pctDecode : List Char → List Char
  | [] => []
  | '%' :: h1 :: h2 :: rest =>
    match hexDigit h1, hexDigit h2 with
    | some a, some b => Char.ofNat (16 * a + b) :: pctDecode rest
    | _, _ => '%' :: pctDecode (h1 :: h2 :: rest)
  | x :: xs => x :: pctDecode xs

/-- `unquote(s.replace('+', ' '))`, the decoding `parse_qsl` applies to every
field name and value. -/
def unquotePlus (l : List Char) : List Char :=
  pctDecode (l.map fun c => if c = '+' then ' ' else c)

/-- One `name=value` field of `parse_qsl` with `keep_blank_values=False`:
fields that are empty, have no `=`, or have an empty value are dropped. -/
def fieldKV (f : List Char) : Option (List Char × List Char) :=
  if f = [] then none
  else
    match breakAtFirst '=' f with
    | (_, none) => none
    | (k, some v) => if v = [] then none else some (unquotePlus k, unquotePlus v)

/-- `parse_qs(query).get('v', [None])[0]`: the first value whose decoded key
is `v`, if any. -/
def parseQsV (q : List Char) : Option (List Char) :=
  ((splitSep '&' q).filterMap fieldKV).lookup ['v']

/-! ## `YouTubeContentScraper._extract_video_id` -/

/-- The character class of the bare-token regular expression
`[a-zA-Z0-9_-]`. -/
def tokenChar (c : Char) : Bool :=
  c.isAlphanum || c = '_' || c = '-'

/-- `re.match(r'^[a-zA-Z0-9_-]{11}$', url)`: eleven class characters to the
end of the string; Python `$` also matches just before one trailing
newline. -/
def bareMatch (l : List Char) : Bool :=
  (l.length = 11 && l.all tokenChar) ||
  (l.length = 12 && (l.take 11).all tokenChar && l.getLast? = some '\n')

/-- The `live_id` cleanup of lines 329-333: everything after `/live/` up to
the next path component. -/
def liveClean (liveId : List Char) : List Char :=
  if containsSub liveId ['/'] then (breakAtFirst '/' liveId).1 else liveId

/-- The body of `_extract_video_id` once the URL has been parsed, dispatching
on the parts. -/
def extractFromParts (url : List Char) (u : UrlParts) : Option (List Char) :=
  if containsSub u.netloc "youtube.com".data then
    if containsSub u.path "/watch".data then parseQsV u.query
    else if containsSub u.path "/shorts/".data then
      some (splitIdx1 u.path "/shorts/".data)
    else if containsSub u.path "/live/".data then
      some (liveClean (splitIdx1 u.path "/live/".data))
    else if bareMatch url then some url else none
  else if containsSub u.netloc "youtu.be".data then
    some (u.path.drop 1)
  else if bareMatch url then some url else none

/-- `YouTubeContentScraper._extract_video_id` (src/app.py:318-341).
A `youtube.com` netloc dispatches on the path (`/watch` → `v` query
parameter, `/shorts/` and `/live/` → path suffix, otherwise fall through to
the bare-token regex); a `youtu.be` netloc returns `path[1:]`; any other
input is matched against the bare 11-character token regex. -/
def extract_video_id (url : List Char) : Option (List Char) :=
  extractFromParts url (urlparseNPQ url)

/-- The URL shapes the extractor dispatches on, phrased over the same parse:
a `youtube.com` netloc with a `/watch`, `/shorts/` or `/live/` path segment,
a `youtu.be` netloc (when `youtube.com` does not occur in the netloc), or a
bare-token match. -/
def supportedShape (url : List Char) : Bool :=
  let u := urlparseNPQ url
  (containsSub u.netloc "youtube.com".data &&
    (containsSub u.path "/watch".data || containsSub u.path "/shorts/".data ||
      containsSub u.path "/live/".data)) ||
  (!containsSub u.netloc "youtube.com".data &&
    containsSub u.netloc "youtu.be".data) ||
  bareMatch url

/-! ## Metadata resolution (`get_video_info_api` / `get_video_info`)

External calls are fixed by a `MetaWorld` record: whether a YouTube API
service handle exists (`yt_service`), the outcome of the API `videos().list`
request, and the outcome of the scraping path (browser launch, navigation and
parsing folded into one `Except`, since any exception inside
`get_video_info_scraping` propagates to its caller).  Payload fields other
than the id, the title and the `scraped` marker are data plumbing and are
abstracted away. -/

structure Meta where
  vid : String
  title : String
  scraped : Bool
deriving Repr, DecidableEq

/-- One item of the API response (`response['items'][k]`), reduced to the
fields the model keeps. -/
structure ApiItem where
  title : String
deriving Repr, DecidableEq

/-- The parsed document of the scraping path, reduced likewise. -/
structure ScrapedDoc where
  title : String
deriving Repr, DecidableEq

structure MetaWorld where
  /-- `self.yt_service` is non-`None` (an API key was configured and the
  client built). -/
  hasService : Bool
  /-- Outcome of `request.execute()`: an exception, or the `items` list. -/
  apiItems : Except String (List ApiItem)
  /-- Outcome of the whole scraping path (`initialize_webdriver`, `get`,
  parse): an exception, or the parsed document. -/
  scrape : Except String ScrapedDoc

/-- `YouTubeContentScraper.get_video_info_api` (src/app.py:343-377). -/
def get_video_info_api (w : MetaWorld) (vid : String) : Except String Meta :=
  if !w.hasService then .error "YouTube API not initialized. Check API key."
  else
    match w.apiItems with
    | .error e => .error e
    | .ok [] => .error ("No video found with ID: " ++ vid)
    | .ok (item :: _) => .ok ⟨vid, item.title, false⟩

/-- `YouTubeContentScraper.get_video_info_scraping` (src/app.py:379-432):
any exception propagates; on success the result carries `scraped = True`. -/
def get_video_info_scraping (w : MetaWorld) (vid : String) : Except String Meta :=
  match w.scrape with
  | .error e => .error e
  | .ok doc => .ok ⟨vid, doc.title, true⟩

/-- `YouTubeContentScraper.get_video_info` (src/app.py:434-448).  The second
component records whether the scraping fallback was entered.  Extraction
failure (`None` or the empty string, both falsy) raises; when a service
handle exists, the API path is tried and *any* exception from it — including
the zero-results `ValueError` — falls through to scraping; a scraping
exception propagates as the final error. -/
def get_video_info (w : MetaWorld) (url : String) :
    Except String Meta × Bool :=
  match extract_video_id url.data with
  | none => (.error ("Could not extract video ID from URL: " ++ url), false)
  | some vidL =>
    if vidL = [] then
      (.error ("Could not extract video ID from URL: " ++ url), false)
    else
      let vid := String.mk vidL
      if w.hasService then
        match get_video_info_api w vid with
        | .ok m => (.ok m, false)
        | .error _ => (get_video_info_scraping w vid, true)
      else (get_video_info_scraping w vid, true)

/-! ## Transcript resolution (`get_transcript`)

A caption track is its language code plus the outcomes of `fetch()` and of
`translate('en').fetch()` (the latter two source calls share one exception
handler, so they are folded into one `Except`).  A transcript is an abstract
list of entries. -/

structure TEntry where
  text : String
deriving Repr, DecidableEq

structure Track where
  lang : String
  fetched : Except String (List TEntry)
  translatedFetched : Except String (List TEntry)

structure TWorld where
  /-- `YouTubeTranscriptApi.get_transcript(video_id)`. -/
  defaultFetch : Except String (List TEntry)
  /-- `YouTubeTranscriptApi.list_transcripts(video_id)`. -/
  listTracks : Except String (List Track)

/-- Result of the enumeration loop (src/app.py:465-473): either an English
track was fetched successfully (immediate `return`), or the loop finished
with the last non-English track retained as fallback candidate. -/
inductive ScanOut
  | found (d : List TEntry)
  | done (cand : Option Track)

/-- The `for transcript in transcript_languages` loop: an English track whose
fetch succeeds returns immediately; an English track whose fetch raises is
skipped (the handler logs and continues, and the candidate assignment after
the `return` is never reached); every non-English track overwrites the
fallback candidate (last-wins). -/
def scanTracks : List Track → Option Track → ScanOut
  | [], cand => .done cand
  | t :: ts, cand =>
    if t.lang = "en" then
      match t.fetched with
      | .ok d => .found d
      | .error _ => scanTracks ts cand
    else scanTracks ts (some t)

/-- `YouTubeContentScraper.get_transcript` (src/app.py:450-501).  The
function is total: every exception of every stage is caught and the worst
case is the empty list.  On translation failure the handler re-fetches the
fallback candidate untranslated; if that fetch raises too, the exception is
caught by the enumeration handler and the overall result is `[]`. -/
def get_transcript (w : TWorld) : List TEntry :=
  match w.defaultFetch with
  | .ok d => d
  | .error _ =>
    match w.listTracks with
    | .error _ => []
    | .ok tracks =>
      match scanTracks tracks none with
      | .found d => d
      | .done none => []
      | .done (some c) =>
        if c.lang ≠ "en" then
          match c.translatedFetched with
          | .ok d => d
          | .error _ =>
            match c.fetched with
            | .ok d => d
            | .error _ => []
        else
          match c.fetched with
          | .ok d => d
          | .error _ => []

/-! ## Video acquisition (`download_video`)

The three strategies — yt-dlp, the Selenium relay, plain pytube — are run in
source order.  Each strategy's external calls are fixed by a `VideoWorld`
record, grouped exactly by the exception handler that would catch a failure
of the call in the source.  The result is instrumented with the list of
strategies entered (`tried`) and with the strategy that produced the returned
path (`succeededVia`), so that chain-order properties can be stated. -/

inductive Strategy
  | ytdlp
  | selenium
  | pytube
deriving Repr, DecidableEq

/-- The `info` dict of `ydl.extract_info`, reduced to what line 570-574
reads: the `requested_downloads[0]['filepath']` chain and `info['ext']`. -/
structure YtInfo where
  requestedDownloads : List String
  ext : Option String
deriving Repr, DecidableEq

structure VideoWorld where
  /-- `config["download_path"]`. -/
  downloadPath : String
  /-- The `import yt_dlp` / auto-install block: `.error` is the
  `ImportError` raised when the install fails. -/
  ytImport : Except String Unit
  /-- `ydl.extract_info(..., download=True)`: an exception, a falsy `info`
  (`none`), or the info dict. -/
  ytInfo : Except String (Option YtInfo)
  /-- `os.path.getsize` view of the file system at the method-1 existence
  check (`none` = file absent).  Method 1 checks existence only. -/
  fileSize1 : String → Option Nat
  /-- `initialize_webdriver()` in method 2. -/
  selInit : Except String Unit
  /-- Download-behaviour configuration plus `driver.get` plus the pacing
  sleep: an exception here escapes the `try`/`finally` and is caught by the
  method-2 handler (line 653). -/
  selNav : Except String Unit
  /-- The inner UI block (line 611-644): `.error` = an exception during
  wait/click, caught at line 645 and only logged; `.ok none` = no download
  buttons found; `.ok (some files)` = the post-download directory listing as
  (name, size) pairs. -/
  selUI : Except String (Option (List (String × Nat)))
  /-- `YouTube(...)` construction plus header assignment in method 3. -/
  pyCtor : Except String Unit
  /-- The inner stream block (line 672-681): `.error` = an exception during
  stream query or download (caught at line 682, appended as a
  `Pytube stream error`); `.ok none` = no mp4 stream found (silent);
  `.ok (some (path, size))` = a download finished at `path`, with the
  `os.path.getsize` view of it (`none` = absent). -/
  pyStream : Except String (Option (String × Option Nat))
  /-- `os.path.exists`/`os.path.getsize` of `output_file` at the final check
  (line 692), `none` = absent. -/
  finalSize : Option Nat

structure DVResult where
  outcome : Except String String
  errors : List String
  tried : List Strategy
  succeededVia : Option Strategy
deriving Repr

/-- Python `any("age" in err.lower() for err in errors)` style scan used for
the advisory hints of the aggregated failure message. -/
def anyContainsLower (errors : List String) (needle : List Char) : Bool :=
  errors.any fun e => containsSub (e.data.map Char.toLower) needle

/-- `", ".join`-style join with the `"; "` separator of line 693. -/
def joinSemi : List String → String
  | [] => ""
  | [e] => e
  | e :: rest => e ++ "; " ++ joinSemi rest

/-- The aggregated failure message of lines 693-703, including the
age-restriction and geo-restriction hints. -/
def aggregatedMsg (errors : List String) : String :=
  let base := "Video download failed after multiple attempts. Errors: " ++
    joinSemi errors
  let base :=
    if anyContainsLower errors "age".data then
      base ++
        "\nThis video may be age-restricted. Try logging in to YouTube and exporting cookies.txt."
    else base
  if anyContainsLower errors "geo".data ||
      anyContainsLower errors "your country".data then
    base ++ "\nThis video may be geographically restricted. Try using a VPN."
  else base

/-- Method 1 of `download_video` (lines 526-585): returns the strategy
outcome (`some path` on a verified success) and the errors it appended. -/
def videoMethod1 (w : VideoWorld) (output_path vid : String) :
    Option String × List String :=
  match w.ytImport with
  | .error e => (none, ["yt-dlp method failed: " ++ e])
  | .ok _ =>
    match w.ytInfo with
    | .error e => (none, ["yt-dlp method failed: " ++ e])
    | .ok none => (none, [])
    | .ok (some info) =>
      let video_path :=
        match info.requestedDownloads with
        | p :: _ => p
        | [] => output_path ++ "/" ++ vid ++ "." ++ info.ext.getD "mp4"
      if (w.fileSize1 video_path).isSome then (some video_path, [])
      else
        (none, ["yt-dlp method failed: Expected file not found at " ++ video_path])

/-- Method 2 of `download_video` (lines 587-655).  A failure of the inner UI
block (line 611-644) is caught at line 645 and only logged, so it appends
nothing; only exceptions escaping to line 653 (driver launch, download-dir
configuration, navigation) are appended. -/
def videoMethod2 (w : VideoWorld) (output_path vid : String) :
    Option String × List String :=
  match w.selInit with
  | .error e => (none, ["Selenium method failed: " ++ e])
  | .ok _ =>
    match w.selNav with
    | .error e => (none, ["Selenium method failed: " ++ e])
    | .ok _ =>
      match w.selUI with
      | .error _ => (none, [])
      | .ok none => (none, [])
      | .ok (some files) =>
        let mp4Files := files.filter fun f =>
          endsWithSeq f.1.data ".mp4".data && decide (f.2 > 1000000)
        match mp4Files with
        | [] => (none, [])
        | _ :: _ => (some (output_path ++ "/" ++ vid ++ ".mp4"), [])

/-- Method 3 of `download_video` (lines 657-689).  An inner stream/download
exception appends a `Pytube stream error`; a constructor exception appends a
`Standard pytube method failed` entry; a missing stream or an empty
downloaded file falls through silently. -/
def videoMethod3 (w : VideoWorld) : Option String × List String :=
  match w.pyCtor with
  | .error e => (none, ["Standard pytube method failed: " ++ e])
  | .ok _ =>
    match w.pyStream with
    | .error e => (none, ["Pytube stream error: " ++ e])
    | .ok none => (none, [])
    | .ok (some (video_path, size)) =>
      match size with
      | some n => if n > 0 then (some video_path, []) else (none, [])
      | none => (none, [])

/-- `YouTubeContentScraper.download_video` (src/app.py:507-709), with
`output_path` defaulted from the configuration.  After all three methods
fail, the code still returns `output_file` when that path exists non-empty
(line 692-705); otherwise it raises the aggregated failure. -/
def download_video (w : VideoWorld) (url : String) : DVResult :=
  match extract_video_id url.data with
  | none =>
    ⟨.error ("Could not extract video ID from URL: " ++ url), [], [], none⟩
  | some vidL =>
    if vidL = [] then
      ⟨.error ("Could not extract video ID from URL: " ++ url), [], [], none⟩
    else
      let vid := String.mk vidL
      let output_path := w.downloadPath ++ "/" ++ vid
      let output_file := output_path ++ "/" ++ vid ++ ".mp4"
      match videoMethod1 w output_path vid with
      | (some p, e1) => ⟨.ok p, e1, [.ytdlp], some .ytdlp⟩
      | (none, e1) =>
        match videoMethod2 w output_path vid with
        | (some p, e2) =>
          ⟨.ok p, e1 ++ e2, [.ytdlp, .selenium], some .selenium⟩
        | (none, e2) =>
          match videoMethod3 w with
          | (some p, e3) =>
            ⟨.ok p, e1 ++ e2 ++ e3, [.ytdlp, .selenium, .pytube], some .pytube⟩
          | (none, e3) =>
            let errors := e1 ++ e2 ++ e3
            match w.finalSize with
            | some n =>
              if n = 0 then
                ⟨.error (aggregatedMsg errors), errors,
                  [.ytdlp, .selenium, .pytube], none⟩
              else
                ⟨.ok output_file, errors, [.ytdlp, .selenium, .pytube], none⟩
            | none =>
              ⟨.error (aggregatedMsg errors), errors,
                [.ytdlp, .selenium, .pytube], none⟩

/-! ## The pytube audio strategy of `download_audio` (src/app.py:796-838)

Method 2 of the audio chain: resolve an audio-only stream with pytube,
download it, and — when the downloaded file has an `.mp4` extension —
transcode it to mp3 with moviepy, delete the original, and return the mp3
path; when transcoding fails the original path is returned unchanged.  The
second component of the result collects the paths removed from disk
(`os.remove` calls). -/

structure PytubeAudioW where
  /-- `YouTube(...)` construction plus header assignment. -/
  setup : Except String Unit
  /-- `yt.streams.filter(only_audio=True).first()`: an exception, or whether
  a stream was found. -/
  streamQuery : Except String Bool
  /-- `audio_stream.download(output_path)`: an exception, or the produced
  path. -/
  download : Except String String
  /-- The `AudioFileClip` / `write_audiofile` / `close` composite. -/
  conv : Except String Unit
  /-- `os.path.exists(audio_path)` before the `os.remove` (line 827). -/
  origExists : Bool

/-- Method 2 of `YouTubeContentScraper.download_audio` (lines 796-838): the
`Except` is the exception escaping to the method-2 handler at line 840. -/
def pytube_audio (w : PytubeAudioW) : Except String String × List String :=
  match w.setup with
  | .error e => (.error e, [])
  | .ok _ =>
    match w.streamQuery with
    | .error e => (.error e, [])
    | .ok false => (.error "No audio stream found for this video", [])
    | .ok true =>
      match w.download with
      | .error e => (.error e, [])
      | .ok audio_path =>
        if endsWithSeq audio_path.data ".mp4".data then
          match w.conv with
          | .ok _ =>
            let mp3_path := String.mk (replaceSeq ".mp4".data ".mp3".data audio_path.data)
            (.ok mp3_path, if w.origExists then [audio_path] else [])
          | .error _ => (.ok audio_path, [])
        else (.ok audio_path, [])

/-! ## `AntiDetectionManager.initialize_webdriver` (src/app.py:248-295)

The session state keeps the `self.driver` field (which, faithfully to the
source, may go on referencing an already-quit driver) together with an
instrumentation of which driver processes are actually alive (`live`).
`uc.Chrome` allocates ids from a counter; the world fixes whether the launch
and the stealth-script injection succeed. -/

structure EvasionState where
  /-- `self.driver`: the handle the session holds (possibly of an
  already-closed browser — `quit()` does not clear the field). -/
  driver : Option Nat
  /-- The set of browser processes currently alive. -/
  live : List Nat
  /-- Allocation counter for fresh driver ids. -/
  nextId : Nat
deriving Repr, DecidableEq

/-- `AntiDetectionManager.__init__`: `self.driver = None`. -/
def initEvasionState : EvasionState := ⟨none, [], 0⟩

structure LaunchW where
  /-- `uc.Chrome(options=options)`. -/
  launch : Except String Unit
  /-- `driver.execute_script(...)` stealth injection. -/
  script : Except String Unit

/-- `self.driver.quit()`: closes the referenced browser process; the
`self.driver` field itself is left untouched (the source never clears it
here).  Quitting an already-closed driver is a no-op on `live`. -/
def quitDriver (st : EvasionState) : EvasionState :=
  match st.driver with
  | some d => { st with live := st.live.erase d }
  | none => st

/-- `AntiDetectionManager.initialize_webdriver` (lines 248-289): any
previously open driver is quit first; a launch failure re-runs the
`if self.driver: self.driver.quit()` of the handler and re-raises; a stealth
script failure quits the freshly launched driver and re-raises. -/
def initialize_webdriver (w : LaunchW) (st : EvasionState) :
    EvasionState × Except String Nat :=
  let st1 := quitDriver st
  match w.launch with
  | .error e => (quitDriver st1, .error e)
  | .ok _ =>
    let id := st1.nextId
    let st2 : EvasionState := ⟨some id, id :: st1.live, st1.nextId + 1⟩
    match w.script with
    | .error e => (quitDriver st2, .error e)
    | .ok _ => (st2, .ok id)

/-- `AntiDetectionManager.close_webdriver` (lines 291-295). -/
def close_webdriver (st : EvasionState) : EvasionState :=
  match st.driver with
  | some _ => { quitDriver st with driver := none }
  | none => st

/-- The per-session browser invariant: at most one live browser, and every
live browser is the one the `driver` field references, with ids below the
allocation counter. -/
def EvasionInv (st : EvasionState) : Prop :=
  st.live.length ≤ 1 ∧ (∀ x ∈ st.live, st.driver = some x) ∧
    ∀ x ∈ st.live, x < st.nextId

/-- Iterated acquisition calls: the state after running a sequence of
`initialize_webdriver` calls with the given outcomes. -/
def runAcquisitions (ws : List LaunchW) (st : EvasionState) : EvasionState :=
  ws.foldl (fun s w => (initialize_webdriver w s).1) st

/-! ## The orchestrating page (`content_scraping_page`, src/app.py:1827-1956)

The Streamlit page is the orchestrator of one acquisition request: metadata
first (its failure aborts the whole request), then video / audio / transcript
per the check-box switches, each guarded by its own handler that converts a
failure into a user-visible notice, and finally the metadata record is
persisted even when some artifacts failed.  Rendering calls (`st.video`,
`st.audio`, text formatting) are elided; the `st.error` / `st.warning`
notices that record a sub-resolver failure are collected in `warnings`. -/

structure SavedMeta where
  videoInfo : Meta
  videoPath : Option String
  audioPath : Option String
  hasTranscript : Bool
deriving Repr, DecidableEq

structure PageW where
  /-- `get_video_info(youtube_url)`. -/
  videoInfo : Except String Meta
  /-- `download_video(youtube_url)`: exception or produced path. -/
  videoDl : Except String String
  /-- `os.path.exists and getsize > 0` of the downloaded video (line 1858). -/
  videoValid : Bool
  /-- `os.path.exists(video_path)` at the metadata save (line 1938). -/
  videoExistsAtSave : Bool
  /-- `download_audio(youtube_url)`. -/
  audioDl : Except String String
  /-- Line 1879 check for the audio file. -/
  audioValid : Bool
  /-- Line 1939 check for the audio file. -/
  audioExistsAtSave : Bool
  /-- `get_transcript(video_id)` — total per its own contract. -/
  transcript : List TEntry
  /-- The metadata JSON dump (directory creation + write). -/
  saveOk : Except String Unit

structure PageOut where
  /-- The page-level `st.error` of the outer handler (line 1953), `none`
  when the request was not aborted. -/
  fatal : Option String
  /-- Non-fatal notices recorded along the way. -/
  warnings : List String
  videoPath : Option String
  audioPath : Option String
  /-- The transcript obtained when requested. -/
  transcriptShown : Option (List TEntry)
  /-- The persisted metadata record. -/
  savedMeta : Option SavedMeta
deriving Repr

/-- `YouTubeContentScraperApp.content_scraping_page`, the per-request
orchestration (lines 1827-1956). -/
def content_scraping_page (w : PageW) (url : String)
    (wantVideo wantAudio wantTranscript : Bool) : PageOut :=
  if url = "" then
    ⟨none, ["Please enter a YouTube URL"], none, none, none, none⟩
  else
    match w.videoInfo with
    | .error e =>
      ⟨some ("Error processing video: " ++ e), [], none, none, none, none⟩
    | .ok info =>
      let (videoPath, warnV) :=
        if wantVideo then
          match w.videoDl with
          | .ok p =>
            (some p,
              if w.videoValid then ([] : List String)
              else ["Video download completed but the file may be corrupted or empty."])
          | .error e => (none, ["Error downloading video: " ++ e])
        else (none, [])
      let (audioPath, warnA) :=
        if wantAudio then
          match w.audioDl with
          | .ok p =>
            (some p,
              if w.audioValid then ([] : List String)
              else ["Audio download completed but the file may be corrupted or empty."])
          | .error e => (none, ["Error downloading audio: " ++ e])
        else (none, [])
      let (transcriptShown, warnT) :=
        if wantTranscript then
          (some w.transcript,
            if w.transcript = [] then
              ["Could not retrieve transcript for this video. It may not have subtitles or captions."]
            else ([] : List String))
        else (none, [])
      let saved : SavedMeta :=
        { videoInfo := info
          videoPath :=
            match videoPath with
            | some p => if w.videoExistsAtSave then some p else none
            | none => none
          audioPath :=
            match audioPath with
            | some p => if w.audioExistsAtSave then some p else none
            | none => none
          hasTranscript :=
            match transcriptShown with
            | some l => l ≠ []
            | none => false }
      let warnS :=
        match w.saveOk with
        | .ok _ => ([] : List String)
        | .error e => ["Error saving metadata: " ++ e]
      ⟨none, warnV ++ warnA ++ warnT ++ warnS, videoPath, audioPath,
        transcriptShown, some saved⟩

/-! ## Helper lemmas about the string machinery -/

theorem leadsWith_append_self (p r : List Char) : leadsWith p (p ++ r) = true := by
  induction p with
  | nil => rfl
  | cons c cs ih =>
    show leadsWith (c :: cs) (c :: (cs ++ r)) = true
    simp [leadsWith, ih]

theorem leadsWith_mem {n l : List Char} (h : leadsWith n l = true) :
    ∀ x ∈ n, x ∈ l := by
  induction n generalizing l with
  | nil => intro x hx; cases hx
  | cons c cs ih =>
    intro x hx
    cases l with
    | nil => simp [leadsWith] at h
    | cons y ys =>
      rw [leadsWith] at h
      by_cases hc : c = y
      · rw [if_pos hc] at h
        rcases List.mem_cons.1 hx with rfl | hx'
        · exact hc ▸ List.mem_cons_self _ _
        · exact List.mem_cons_of_mem _ (ih h x hx')
      · rw [if_neg hc] at h
        cases h

theorem containsSub_of_leadsWith {l n : List Char} (h : leadsWith n l = true) :
    containsSub l n = true := by
  cases l with
  | nil => exact h ▸ rfl
  | cons x xs => simp [containsSub, h]

theorem containsSub_head_not_mem (c : Char) (n l : List Char)
    (h : ∀ x ∈ l, x ≠ c) : containsSub l (c :: n) = false := by
  induction l with
  | nil => rfl
  | cons x xs ih =>
    rw [containsSub]
    have hx : x ≠ c := h x (List.mem_cons_self _ _)
    rw [leadsWith, if_neg (fun e => hx e.symm)]
    exact ih fun y hy => h y (List.mem_cons_of_mem _ hy)

theorem breakAtFirst_not_mem (c : Char) (l : List Char)
    (h : ∀ x ∈ l, x ≠ c) : breakAtFirst c l = (l, none) := by
  induction l with
  | nil => rfl
  | cons x xs ih =>
    rw [breakAtFirst, if_neg (h x (List.mem_cons_self _ _)),
      ih fun y hy => h y (List.mem_cons_of_mem _ hy)]

theorem breakAtFirst_append_not_mem (c : Char) (p l : List Char)
    (h : ∀ x ∈ p, x ≠ c) :
    breakAtFirst c (p ++ l) =
      (p ++ (breakAtFirst c l).1, (breakAtFirst c l).2) := by
  induction p with
  | nil => simp
  | cons x xs ih =>
    show breakAtFirst c (x :: (xs ++ l)) = _
    rw [breakAtFirst, if_neg (h x (List.mem_cons_self _ _)),
      ih fun y hy => h y (List.mem_cons_of_mem _ hy)]
    simp

theorem splitSep_not_mem (c : Char) (l : List Char)
    (h : ∀ x ∈ l, x ≠ c) : splitSep c l = [l] := by
  induction l with
  | nil => rfl
  | cons x xs ih =>
    rw [splitSep, if_neg (h x (List.mem_cons_self _ _)),
      ih fun y hy => h y (List.mem_cons_of_mem _ hy)]

theorem leadsWith_head_ne {c x : Char} (s xs : List Char) (h : c ≠ x) :
    leadsWith (c :: s) (x :: xs) = false := by
  rw [leadsWith, if_neg h]

theorem pctDecode_not_mem (l : List Char) (h : ∀ x ∈ l, x ≠ '%') :
    pctDecode l = l := by
  induction l with
  | nil => rfl
  | cons x xs ih =>
    have hx : x ≠ '%' := h x (List.mem_cons_self _ _)
    have hxs : ∀ y ∈ xs, y ≠ '%' := fun y hy => h y (List.mem_cons_of_mem _ hy)
    have hys := ih hxs
    rw [pctDecode.eq_def]
    split <;> simp_all

theorem unquotePlus_token (l : List Char)
    (h : ∀ x ∈ l, x ≠ '%' ∧ x ≠ '+') : unquotePlus l = l := by
  unfold unquotePlus
  have hm : (l.map fun c => if c = '+' then ' ' else c) = l := by
    induction l with
    | nil => rfl
    | cons x xs ih =>
      have := (h x (List.mem_cons_self _ _)).2
      simp only [List.map_cons, if_neg this]
      rw [ih fun y hy => h y (List.mem_cons_of_mem _ hy)]
  rw [hm]
  exact pctDecode_not_mem l fun x hx => (h x hx).1

theorem schemeSplit_no_colon (l : List Char) (h : ∀ x ∈ l, x ≠ ':') :
    schemeSplit l = none := by
  induction l with
  | nil => rfl
  | cons x xs ih =>
    rw [schemeSplit, if_neg (h x (List.mem_cons_self _ _)),
      ih fun y hy => h y (List.mem_cons_of_mem _ hy)]
    cases schemeChar x <;> simp

theorem afterFirstSeq_self (c : Char) (s t : List Char) :
    afterFirstSeq (c :: s) ((c :: s) ++ t) = some t := by
  have heq : afterFirstSeq (c :: s) ((c :: s) ++ t) =
      if leadsWith (c :: s) ((c :: s) ++ t) then
        some (((c :: s) ++ t).drop (c :: s).length)
      else afterFirstSeq (c :: s) (s ++ t) := rfl
  rw [heq, if_pos (leadsWith_append_self _ _), List.drop_left]

theorem beforeFirstSeq_head_not_mem (c : Char) (s l : List Char)
    (h : ∀ x ∈ l, x ≠ c) : beforeFirstSeq (c :: s) l = l := by
  induction l with
  | nil => rfl
  | cons x xs ih =>
    have hlw : leadsWith (c :: s) (x :: xs) = false :=
      leadsWith_head_ne _ _ fun e => h x (List.mem_cons_self _ _) e.symm
    rw [beforeFirstSeq, hlw, if_neg Bool.false_ne_true,
      ih fun y hy => h y (List.mem_cons_of_mem _ hy)]

theorem splitIdx1_self (c : Char) (s t : List Char) (h : ∀ x ∈ t, x ≠ c) :
    splitIdx1 ((c :: s) ++ t) (c :: s) = t := by
  unfold splitIdx1
  rw [afterFirstSeq_self]
  exact beforeFirstSeq_head_not_mem c s t h

theorem parseAfterNetloc_clean (s n r : List Char)
    (h1 : ∀ x ∈ r, x ≠ '#') (h2 : ∀ x ∈ r, x ≠ '?') (h3 : ∀ x ∈ r, x ≠ ';') :
    parseAfterNetloc s n r = ⟨n, r, []⟩ := by
  unfold parseAfterNetloc
  rw [breakAtFirst_not_mem '#' r h1]
  show UrlParts.mk n (pathParamsCut s (breakAtFirst '?' r).1) ((breakAtFirst '?' r).2.getD []) = _
  rw [breakAtFirst_not_mem '?' r h2]
  show UrlParts.mk n (pathParamsCut s r) _ = _
  unfold pathParamsCut
  rw [containsSub_head_not_mem ';' [] r h3]
  rfl

theorem tokenChar_ne {c : Char} (h : tokenChar c = true) {b : Char}
    (hb : tokenChar b = false) : c ≠ b := by
  intro e; subst e; rw [h] at hb; cases hb

theorem tokenChar_avoid {t : List Char} (ht : ∀ c ∈ t, tokenChar c = true)
    {b : Char} (hb : tokenChar b = false) : ∀ x ∈ t, x ≠ b :=
  fun x hx => tokenChar_ne (ht x hx) hb

theorem forall_mem_append_chars {p t : List Char} {P : Char → Prop}
    (hp : ∀ x ∈ p, P x) (ht : ∀ x ∈ t, P x) : ∀ x ∈ p ++ t, P x := by
  intro x hx
  rcases List.mem_append.1 hx with h | h
  exacts [hp x h, ht x h]

/-! ## Parsing the five supported URL shapes with a symbolic token -/

theorem parse_watch (t : List Char) (h1 : ∀ x ∈ t, x ≠ '#') :
    urlparseNPQ ("https://www.youtube.com/watch?v=".data ++ t) =
      ⟨"www.youtube.com".data, "/watch".data, 'v' :: '=' :: t⟩ := by
  have hb : breakAtFirst '#' ("/watch?v=".data ++ t) =
      ("/watch?v=".data ++ t, none) := by
    rw [breakAtFirst_append_not_mem '#' _ _ (by decide),
      breakAtFirst_not_mem '#' t h1]
  show parseAfterNetloc "https".data "www.youtube.com".data
      ("/watch?v=".data ++ t) = _
  unfold parseAfterNetloc
  rw [hb]
  rfl

theorem parse_shorts (t : List Char) (h1 : ∀ x ∈ t, x ≠ '#')
    (h2 : ∀ x ∈ t, x ≠ '?') (h3 : ∀ x ∈ t, x ≠ ';') :
    urlparseNPQ ("https://www.youtube.com/shorts/".data ++ t) =
      ⟨"www.youtube.com".data, "/shorts/".data ++ t, []⟩ := by
  show parseAfterNetloc "https".data "www.youtube.com".data
      ("/shorts/".data ++ t) = _
  exact parseAfterNetloc_clean _ _ _
    (forall_mem_append_chars (by decide) h1)
    (forall_mem_append_chars (by decide) h2)
    (forall_mem_append_chars (by decide) h3)

theorem parse_live (t : List Char) (h1 : ∀ x ∈ t, x ≠ '#')
    (h2 : ∀ x ∈ t, x ≠ '?') (h3 : ∀ x ∈ t, x ≠ ';') :
    urlparseNPQ ("https://www.youtube.com/live/".data ++ t) =
      ⟨"www.youtube.com".data, "/live/".data ++ t, []⟩ := by
  show parseAfterNetloc "https".data "www.youtube.com".data
      ("/live/".data ++ t) = _
  exact parseAfterNetloc_clean _ _ _
    (forall_mem_append_chars (by decide) h1)
    (forall_mem_append_chars (by decide) h2)
    (forall_mem_append_chars (by decide) h3)

theorem parse_ytbe (t : List Char) (h1 : ∀ x ∈ t, x ≠ '#')
    (h2 : ∀ x ∈ t, x ≠ '?') (h3 : ∀ x ∈ t, x ≠ ';') :
    urlparseNPQ ("https://youtu.be/".data ++ t) =
      ⟨"youtu.be".data, '/' :: t, []⟩ := by
  show parseAfterNetloc "https".data "youtu.be".data ('/' :: t) = _
  exact parseAfterNetloc_clean _ _ _
    (forall_mem_append_chars (p := ['/']) (by decide) h1)
    (forall_mem_append_chars (p := ['/']) (by decide) h2)
    (forall_mem_append_chars (p := ['/']) (by decide) h3)

theorem parse_bare (t : List Char) (hlen : t.length = 11)
    (ht : ∀ c ∈ t, tokenChar c = true) : urlparseNPQ t = ⟨[], t, []⟩ := by
  obtain ⟨c, cs, rfl⟩ : ∃ c cs, t = c :: cs := by
    cases t with
    | nil => simp at hlen
    | cons c cs => exact ⟨c, cs, rfl⟩
  have hcolon : schemeSplit (c :: cs) = none :=
    schemeSplit_no_colon _ (tokenChar_avoid ht (by decide))
  have hs : splitScheme (c :: cs) = ([], c :: cs) := by
    show (if c.isAlpha = true then
        match schemeSplit (c :: cs) with
        | some (s, r) => (List.map Char.toLower s, r)
        | none => ([], c :: cs)
      else ([], c :: cs)) = ([], c :: cs)
    by_cases hA : c.isAlpha
    · rw [if_pos hA, hcolon]
    · rw [if_neg hA]
  have hslash : c ≠ '/' := tokenChar_ne (ht c (List.mem_cons_self _ _)) (by decide)
  have hll : leadsWith ['/', '/'] (c :: cs) = false :=
    leadsWith_head_ne _ _ fun e => hslash e.symm
  unfold urlparseNPQ
  rw [hs]
  dsimp only
  rw [hll, if_neg Bool.false_ne_true]
  exact parseAfterNetloc_clean _ _ _
    (tokenChar_avoid ht (by decide)) (tokenChar_avoid ht (by decide))
    (tokenChar_avoid ht (by decide))

theorem parseQsV_token (t : List Char) (hne : t ≠ [])
    (h : ∀ x ∈ t, x ≠ '&' ∧ x ≠ '%' ∧ x ≠ '+') :
    parseQsV ('v' :: '=' :: t) = some t := by
  have hs : splitSep '&' ('v' :: '=' :: t) = ['v' :: '=' :: t] := by
    refine splitSep_not_mem '&' _ ?_
    intro x hx
    rcases List.mem_cons.1 hx with rfl | hx'
    · decide
    rcases List.mem_cons.1 hx' with rfl | hx''
    · decide
    · exact (h x hx'').1
  have hf : fieldKV ('v' :: '=' :: t) = some (['v'], t) := by
    unfold fieldKV
    rw [if_neg (by simp : ¬('v' :: '=' :: t = []))]
    show (if t = [] then none
      else some (unquotePlus ['v'], unquotePlus t)) = some (['v'], t)
    rw [if_neg hne, unquotePlus_token t fun x hx => ⟨(h x hx).2.1, (h x hx).2.2⟩]
    rfl
  unfold parseQsV
  rw [hs, List.filterMap_cons, hf]
  rfl

theorem liveClean_no_slash (t : List Char) (h : ∀ x ∈ t, x ≠ '/') :
    liveClean t = t := by
  unfold liveClean
  rw [containsSub_head_not_mem '/' [] t h, if_neg Bool.false_ne_true]

/-! ## The extractor on the five supported shapes -/

theorem extract_watch (t : List Char) (hlen : t.length = 11)
    (ht : ∀ c ∈ t, tokenChar c = true) :
    extract_video_id ("https://www.youtube.com/watch?v=".data ++ t) = some t := by
  unfold extract_video_id
  rw [parse_watch t (tokenChar_avoid ht (by decide))]
  show parseQsV ('v' :: '=' :: t) = some t
  refine parseQsV_token t (fun e => by simp [e] at hlen) fun x hx =>
    ⟨tokenChar_ne (ht x hx) (by decide), tokenChar_ne (ht x hx) (by decide),
      tokenChar_ne (ht x hx) (by decide)⟩

theorem extract_shorts (t : List Char)
    (ht : ∀ c ∈ t, tokenChar c = true)
    (hw : leadsWith "watch".data t = false) :
    extract_video_id ("https://www.youtube.com/shorts/".data ++ t) = some t := by
  unfold extract_video_id
  rw [parse_shorts t (tokenChar_avoid ht (by decide))
    (tokenChar_avoid ht (by decide)) (tokenChar_avoid ht (by decide))]
  have hwatch : containsSub ("/shorts/".data ++ t) "/watch".data = false := by
    have hrfl : containsSub ("/shorts/".data ++ t) "/watch".data =
        (leadsWith "watch".data t || containsSub t "/watch".data) := rfl
    rw [hrfl, hw, containsSub_head_not_mem '/' _ t (tokenChar_avoid ht (by decide))]
    rfl
  have hshorts : containsSub ("/shorts/".data ++ t) "/shorts/".data = true :=
    containsSub_of_leadsWith (leadsWith_append_self _ _)
  unfold extractFromParts
  dsimp only
  rw [hwatch, if_neg Bool.false_ne_true, hshorts, if_pos rfl,
    splitIdx1_self '/' ['s', 'h', 'o', 'r', 't', 's', '/'] t
      (tokenChar_avoid ht (by decide))]
  rfl

theorem extract_live (t : List Char)
    (ht : ∀ c ∈ t, tokenChar c = true)
    (hw : leadsWith "watch".data t = false) :
    extract_video_id ("https://www.youtube.com/live/".data ++ t) = some t := by
  unfold extract_video_id
  rw [parse_live t (tokenChar_avoid ht (by decide))
    (tokenChar_avoid ht (by decide)) (tokenChar_avoid ht (by decide))]
  have hwatch : containsSub ("/live/".data ++ t) "/watch".data = false := by
    have hrfl : containsSub ("/live/".data ++ t) "/watch".data =
        (leadsWith "watch".data t || containsSub t "/watch".data) := rfl
    rw [hrfl, hw, containsSub_head_not_mem '/' _ t (tokenChar_avoid ht (by decide))]
    rfl
  have hls : leadsWith "shorts/".data t = false := by
    cases h : leadsWith "shorts/".data t
    · rfl
    · exact absurd (ht '/' (leadsWith_mem h '/' (by decide))) (by decide)
  have hshorts : containsSub ("/live/".data ++ t) "/shorts/".data = false := by
    have hrfl : containsSub ("/live/".data ++ t) "/shorts/".data =
        (leadsWith "shorts/".data t || containsSub t "/shorts/".data) := rfl
    rw [hrfl, hls, containsSub_head_not_mem '/' _ t (tokenChar_avoid ht (by decide))]
    rfl
  have hlive : containsSub ("/live/".data ++ t) "/live/".data = true :=
    containsSub_of_leadsWith (leadsWith_append_self _ _)
  unfold extractFromParts
  dsimp only
  rw [hwatch, if_neg Bool.false_ne_true, hshorts, if_neg Bool.false_ne_true,
    hlive, if_pos rfl,
    splitIdx1_self '/' ['l', 'i', 'v', 'e', '/'] t
      (tokenChar_avoid ht (by decide)),
    liveClean_no_slash t (tokenChar_avoid ht (by decide))]
  rfl

theorem extract_ytbe (t : List Char)
    (ht : ∀ c ∈ t, tokenChar c = true) :
    extract_video_id ("https://youtu.be/".data ++ t) = some t := by
  unfold extract_video_id
  rw [parse_ytbe t (tokenChar_avoid ht (by decide))
    (tokenChar_avoid ht (by decide)) (tokenChar_avoid ht (by decide))]
  rfl

theorem extract_bare (t : List Char) (hlen : t.length = 11)
    (ht : ∀ c ∈ t, tokenChar c = true) :
    extract_video_id t = some t := by
  unfold extract_video_id
  rw [parse_bare t hlen ht]
  have hbm : bareMatch t = true := by
    have hall : t.all tokenChar = true := List.all_eq_true.2 ht
    simp [bareMatch, hlen, hall]
  show (if bareMatch t = true then some t else none) = some t
  rw [hbm, if_pos rfl]

theorem extract_none_of_not_shape (url : List Char)
    (h : supportedShape url = false) : extract_video_id url = none := by
  unfold supportedShape at h
  unfold extract_video_id extractFromParts
  cases h1 : containsSub (urlparseNPQ url).netloc "youtube.com".data <;>
    cases h4 : containsSub (urlparseNPQ url).netloc "youtu.be".data <;>
      cases h5 : bareMatch url <;>
        cases h2 : containsSub (urlparseNPQ url).path "/watch".data <;>
          cases h3 : containsSub (urlparseNPQ url).path "/shorts/".data <;>
            cases h6 : containsSub (urlparseNPQ url).path "/live/".data <;>
              simp_all

/-! ## Claim C1 -/

/-- C1 counterexample: `watchabcdef` is a valid 11-character token (the bare
shape and the `watch?v=` shape both extract it), yet the `/shorts/` URL for
the same video extracts nothing — the path `/shorts/watchabcdef` contains the
substring `/watch`, is misrouted to the `v`-parameter parser, and fails, so
the five supported shapes do not all yield the same canonical token. -/
theorem c1_counterexample :
    bareMatch "watchabcdef".data = true ∧
    extract_video_id "watchabcdef".data = some "watchabcdef".data ∧
    extract_video_id "https://www.youtube.com/watch?v=watchabcdef".data =
      some "watchabcdef".data ∧
    extract_video_id "https://www.youtube.com/shorts/watchabcdef".data =
      none :=
  ⟨rfl, rfl, rfl, rfl⟩

/-- C1 (amended): for an 11-character token of the regex class that does not
begin with `watch`, all five supported shapes (`watch?v=`, `/shorts/`,
`/live/`, `youtu.be/`, bare token) extract the same canonical token; for
every input matching none of the dispatch shapes the extractor returns no
identifier; and whenever the extractor returns no identifier the metadata
entry point raises the invalid-reference error. -/
theorem c1_extraction_amended (t : List Char) (hlen : t.length = 11)
    (ht : ∀ c ∈ t, tokenChar c = true)
    (hw : leadsWith "watch".data t = false) :
    (extract_video_id ("https://www.youtube.com/watch?v=".data ++ t) = some t ∧
      extract_video_id ("https://www.youtube.com/shorts/".data ++ t) = some t ∧
      extract_video_id ("https://www.youtube.com/live/".data ++ t) = some t ∧
      extract_video_id ("https://youtu.be/".data ++ t) = some t ∧
      extract_video_id t = some t) ∧
    (∀ url : List Char, supportedShape url = false →
      extract_video_id url = none) ∧
    ∀ (w : MetaWorld) (url : String), extract_video_id url.data = none →
      (get_video_info w url).1 =
        .error ("Could not extract video ID from URL: " ++ url) := by
  refine ⟨⟨extract_watch t hlen ht, extract_shorts t ht hw,
    extract_live t ht hw, extract_ytbe t ht, extract_bare t hlen ht⟩,
    extract_none_of_not_shape, ?_⟩
  intro w url h
  unfold get_video_info
  rw [h]

/-- Closed instantiation of the amended C1 at the token `abcdefghijk` and the
non-shape input `not a url`. -/
theorem c1_extraction_amended_witness :
    extract_video_id "https://www.youtube.com/shorts/abcdefghijk".data =
      some "abcdefghijk".data ∧
    extract_video_id "not a url".data = none :=
  ⟨(c1_extraction_amended "abcdefghijk".data (by decide) (by decide)
      (by decide)).1.2.1,
    (c1_extraction_amended "abcdefghijk".data (by decide) (by decide)
      (by decide)).2.1 "not a url".data (by decide)⟩

/-! ## Claim C9 -/

/-- C9: the 11-character format is enforced only on the bare-token fallback.
URL-shaped inputs return the extracted substring without length or
character-set validation — a `/shorts/` path with a trailing component yields
a token containing a slash, short and long tokens pass through `/shorts/`,
`watch?v=` and `youtu.be/` URLs — while a bare input is accepted only when
the extractor-side regex matches, in which case the input is returned
verbatim. -/
theorem c9_no_validation_for_url_shapes :
    extract_video_id "https://www.youtube.com/shorts/abc/def".data =
      some "abc/def".data ∧
    extract_video_id "https://www.youtube.com/shorts/ab".data =
      some "ab".data ∧
    extract_video_id "https://youtu.be/abcdefghijklmnop".data =
      some "abcdefghijklmnop".data ∧
    extract_video_id "https://www.youtube.com/watch?v=abcdefghijklmnop".data =
      some "abcdefghijklmnop".data ∧
    extract_video_id "ab".data = none ∧
    ∀ url v : List Char,
      containsSub (urlparseNPQ url).netloc "youtube.com".data = false →
      containsSub (urlparseNPQ url).netloc "youtu.be".data = false →
      extract_video_id url = some v → v = url ∧ bareMatch url = true := by
  refine ⟨rfl, rfl, rfl, rfl, rfl, ?_⟩
  intro url v h1 h2 hx
  unfold extract_video_id extractFromParts at hx
  cases h5 : bareMatch url <;> simp_all

/-- Closed instantiation of the bare-token clause of C9. -/
theorem c9_no_validation_witness :
    "abcdefghijk".data = "abcdefghijk".data ∧
    bareMatch "abcdefghijk".data = true :=
  c9_no_validation_for_url_shapes.2.2.2.2.2 "abcdefghijk".data
    "abcdefghijk".data (by decide) (by decide) (by decide)

/-! ## Claim C5 -/

/-- C5 counterexample: with a service credential configured and the
authoritative lookup returning zero results, the resolver does not stop with
a NotFound failure: the zero-results `ValueError` is caught by the same
`except` as every other API failure, the scraping fallback is entered (second
component `true`), and its result is returned. -/
theorem c5_counterexample :
    get_video_info ⟨true, .ok [], .ok ⟨"T"⟩⟩ "abcdefghijk" =
      (.ok ⟨"abcdefghijk", "T", true⟩, true) := rfl

/-- C5 (amended): with a credential configured a successful authoritative
lookup is terminal and scraping is not entered; *every* authoritative failure
— the zero-results case included — transitions to the scraping lookup; and
whenever scraping was entered and failed, the scraping error is the one
propagated. -/
theorem c5_metadata_fallback (w : MetaWorld) (url : String) (vidL : List Char)
    (hx : extract_video_id url.data = some vidL) (hne : ¬vidL = []) :
    (w.hasService = true → ∀ item rest, w.apiItems = .ok (item :: rest) →
      get_video_info w url = (.ok ⟨String.mk vidL, item.title, false⟩, false)) ∧
    (w.hasService = true → w.apiItems = .ok [] →
      get_video_info w url =
        (get_video_info_scraping w (String.mk vidL), true)) ∧
    (w.hasService = true → ∀ e, w.apiItems = .error e →
      get_video_info w url =
        (get_video_info_scraping w (String.mk vidL), true)) ∧
    ∀ e, w.scrape = .error e → (get_video_info w url).2 = true →
      (get_video_info w url).1 = .error e := by
  unfold get_video_info
  rw [hx]
  dsimp only
  rw [if_neg hne]
  refine ⟨?_, ?_, ?_, ?_⟩
  · intro hs item rest hitems
    simp [hs, get_video_info_api, hitems]
  · intro hs hitems
    simp [hs, get_video_info_api, hitems]
  · intro hs e hitems
    simp [hs, get_video_info_api, hitems]
  · intro e hscrape
    cases hs : w.hasService
    · simp [hs, get_video_info_scraping, hscrape]
    · cases hapi : w.apiItems with
      | error e2 =>
        simp [hs, get_video_info_api, hapi, get_video_info_scraping, hscrape]
      | ok items =>
        cases items with
        | nil =>
          simp [hs, get_video_info_api, hapi, get_video_info_scraping, hscrape]
        | cons a as =>
          intro h2
          simp [hs, get_video_info_api, hapi] at h2

/-- Closed instantiation of the amended C5: zero results plus a scraping
failure propagate the scraping error. -/
theorem c5_metadata_fallback_witness :
    get_video_info ⟨true, .ok [], .error "scrape boom"⟩ "abcdefghijk" =
      (get_video_info_scraping ⟨true, .ok [], .error "scrape boom"⟩
        "abcdefghijk", true) :=
  (c5_metadata_fallback ⟨true, .ok [], .error "scrape boom"⟩ "abcdefghijk"
    "abcdefghijk".data (by decide) (by decide)).2.1 rfl rfl

/-! ## Claims C6 and C7: the transcript resolver -/

theorem scanTracks_all_fail (ts : List Track) (cand : Option Track)
    (h : ∀ tr ∈ ts, tr.lang = "en" → ∃ e, tr.fetched = .error e) :
    ∃ cand', scanTracks ts cand = .done cand' ∧
      (cand' = cand ∨ ∃ c ∈ ts, cand' = some c) := by
  induction ts generalizing cand with
  | nil => exact ⟨cand, rfl, Or.inl rfl⟩
  | cons t ts' ih =>
    by_cases hen : t.lang = "en"
    · obtain ⟨e, he⟩ := h t (List.mem_cons_self _ _) hen
      rw [scanTracks, if_pos hen, he]
      obtain ⟨cand', h1, h2⟩ :=
        ih cand fun tr htr => h tr (List.mem_cons_of_mem _ htr)
      refine ⟨cand', h1, ?_⟩
      rcases h2 with h2 | ⟨c, hc, h2⟩
      · exact Or.inl h2
      · exact Or.inr ⟨c, List.mem_cons_of_mem _ hc, h2⟩
    · rw [scanTracks, if_neg hen]
      obtain ⟨cand', h1, h2⟩ :=
        ih (some t) fun tr htr => h tr (List.mem_cons_of_mem _ htr)
      refine ⟨cand', h1, ?_⟩
      rcases h2 with h2 | ⟨c, hc, h2⟩
      · exact Or.inr ⟨t, List.mem_cons_self _ _, h2⟩
      · exact Or.inr ⟨c, List.mem_cons_of_mem _ hc, h2⟩

/-- C6: the transcript resolver is total — its result type is a plain list,
every external outcome is eliminated by a handler — and whenever every stage
fails (the default-language fetch, and then either the enumeration itself or
every per-track fetch and translation), the result is the empty sequence
rather than an error. -/
theorem c6_transcript_never_raises (w : TWorld) (e : String)
    (hd : w.defaultFetch = .error e)
    (h : (∃ e2, w.listTracks = .error e2) ∨
      ∃ ts, w.listTracks = .ok ts ∧ ∀ tr ∈ ts,
        (∃ e3, tr.fetched = .error e3) ∧
          ∃ e4, tr.translatedFetched = .error e4) :
    get_transcript w = [] ∧ ∀ w' : TWorld, ∃ l, get_transcript w' = l := by
  refine ⟨?_, fun w' => ⟨get_transcript w', rfl⟩⟩
  unfold get_transcript
  rw [hd]
  dsimp only
  rcases h with ⟨e2, h2⟩ | ⟨ts, hts, hall⟩
  · rw [h2]
  · rw [hts]
    dsimp only
    obtain ⟨cand', h1, h2⟩ := scanTracks_all_fail ts none fun tr htr _ =>
      (hall tr htr).1
    rw [h1]
    rcases h2 with h2 | ⟨c, hc, h2⟩
    · rw [h2]
    · subst h2
      dsimp only
      obtain ⟨⟨e3, hf⟩, e4, htr⟩ := hall c hc
      by_cases hen : c.lang ≠ "en"
      · rw [if_pos hen, htr, hf]
      · rw [if_neg hen, hf]

/-- Closed instantiation of C6: default fetch fails and enumeration fails —
the result is the empty sequence. -/
theorem c6_transcript_never_raises_witness :
    get_transcript ⟨.error "no default", .error "no listing"⟩ = [] :=
  (c6_transcript_never_raises ⟨.error "no default", .error "no listing"⟩
    "no default" rfl (Or.inl ⟨"no listing", rfl⟩)).1

theorem scanTracks_no_en_last (init : List Track) (c : Track)
    (cand : Option Track) (h : ∀ tr ∈ init ++ [c], tr.lang ≠ "en") :
    scanTracks (init ++ [c]) cand = .done (some c) := by
  induction init generalizing cand with
  | nil =>
    show scanTracks (c :: []) cand = _
    rw [scanTracks, if_neg (h c (by simp))]
    rfl
  | cons t ts ih =>
    show scanTracks (t :: (ts ++ [c])) cand = _
    rw [scanTracks, if_neg (h t (by simp))]
    exact ih _ fun tr htr => h tr (List.mem_cons_of_mem _ htr)

/-- C7: when the default-language fetch fails, enumeration succeeds, no
enumerated track is English, and the fallback candidate is the last
enumerated track (last-wins tie-break), the resolver returns the machine
translation of that candidate when translation succeeds, and returns the
candidate fetched untranslated when translation fails. -/
theorem c7_translation_fallback (w : TWorld) (e : String)
    (init : List Track) (c : Track)
    (hd : w.defaultFetch = .error e)
    (hl : w.listTracks = .ok (init ++ [c]))
    (hen : ∀ tr ∈ init ++ [c], tr.lang ≠ "en") :
    (∀ d, c.translatedFetched = .ok d → get_transcript w = d) ∧
    ∀ e2 l, c.translatedFetched = .error e2 → c.fetched = .ok l →
      get_transcript w = l := by
  have hscan := scanTracks_no_en_last init c none hen
  have hcen : c.lang ≠ "en" := hen c (by simp)
  constructor
  · intro d htr
    unfold get_transcript
    rw [hd]
    dsimp only
    rw [hl]
    dsimp only
    rw [hscan]
    dsimp only
    rw [if_pos hcen, htr]
  · intro e2 l htr hf
    unfold get_transcript
    rw [hd]
    dsimp only
    rw [hl]
    dsimp only
    rw [hscan]
    dsimp only
    rw [if_pos hcen, htr, hf]

/-- Closed instantiation of C7: a single French track, translation failing,
fetch succeeding — the untranslated entries are returned. -/
theorem c7_translation_fallback_witness :
    get_transcript
      ⟨.error "no default",
        .ok [⟨"fr", .ok [⟨"bonjour"⟩], .error "no translation"⟩]⟩ =
      [⟨"bonjour"⟩] :=
  (c7_translation_fallback
    ⟨.error "no default",
      .ok [⟨"fr", .ok [⟨"bonjour"⟩], .error "no translation"⟩]⟩
    "no default" [] ⟨"fr", .ok [⟨"bonjour"⟩], .error "no translation"⟩
    rfl rfl (by simp)).2 "no translation" [⟨"bonjour"⟩] rfl rfl

/-! ## Claim C8: the single-browser invariant -/

theorem quitDriver_live_nil (st : EvasionState) (h : st.live = []) :
    (quitDriver st).live = [] := by
  unfold quitDriver
  cases st.driver <;> simp [h]

theorem quitDriver_live (st : EvasionState) (h : EvasionInv st) :
    (quitDriver st).live = [] := by
  obtain ⟨h1, h2, h3⟩ := h
  cases hd : st.driver with
  | none =>
    have hlnil : st.live = [] := by
      cases hl : st.live with
      | nil => rfl
      | cons x xs =>
        exact absurd (h2 x (hl ▸ List.mem_cons_self _ _)) (by simp [hd])
    simp [quitDriver, hd, hlnil]
  | some d =>
    have hlv : st.live = [] ∨ st.live = [d] := by
      cases hl : st.live with
      | nil => exact Or.inl rfl
      | cons x xs =>
        have hx := h2 x (hl ▸ List.mem_cons_self _ _)
        rw [hd] at hx
        have hxd : x = d := (Option.some.inj hx).symm
        have hxs : xs = [] := by
          rw [hl] at h1
          simpa using h1
        exact Or.inr (by rw [hxd, hxs])
    rcases hlv with hl | hl <;> simp [quitDriver, hd, hl]

theorem quitDriver_driver (st : EvasionState) :
    (quitDriver st).driver = st.driver := by
  unfold quitDriver
  cases hd : st.driver <;> simp [hd]

theorem quitDriver_nextId (st : EvasionState) :
    (quitDriver st).nextId = st.nextId := by
  unfold quitDriver
  cases hd : st.driver <;> simp [hd]

theorem evasion_step (st : EvasionState) (w : LaunchW) (h : EvasionInv st) :
    EvasionInv (initialize_webdriver w st).1 ∧
    (∀ n, (initialize_webdriver w st).2 = .ok n →
      (initialize_webdriver w st).1.live = [n]) ∧
    ∀ e, (initialize_webdriver w st).2 = .error e →
      (initialize_webdriver w st).1.live = [] := by
  have hl0 : (quitDriver st).live = [] := quitDriver_live st h
  unfold initialize_webdriver
  cases hlw : w.launch with
  | error e =>
    dsimp only
    have hq : (quitDriver (quitDriver st)).live = [] :=
      quitDriver_live_nil _ hl0
    refine ⟨⟨?_, ?_, ?_⟩, ?_, ?_⟩
    · rw [hq]; simp
    · rw [hq]; simp
    · rw [hq]; simp
    · intro n hn; simp at hn
    · intro e' _; exact hq
  | ok u =>
    cases hsc : w.script with
    | error e =>
      dsimp only
      have hq : (quitDriver
          (⟨some (quitDriver st).nextId,
            (quitDriver st).nextId :: (quitDriver st).live,
            (quitDriver st).nextId + 1⟩ : EvasionState)).live = [] := by
        show ((quitDriver st).nextId ::
          (quitDriver st).live).erase (quitDriver st).nextId = []
        rw [hl0]
        simp
      refine ⟨⟨?_, ?_, ?_⟩, ?_, ?_⟩
      · rw [hq]; simp
      · rw [hq]; simp
      · rw [hq]; simp
      · intro n hn; simp at hn
      · intro e' _; exact hq
    | ok u2 =>
      dsimp only
      refine ⟨⟨?_, ?_, ?_⟩, ?_, ?_⟩
      · rw [hl0]; simp
      · intro x hx
        rw [hl0] at hx
        simp at hx
        rw [hx]
      · intro x hx
        rw [hl0] at hx
        simp at hx
        rw [hx]
        exact Nat.lt_succ_self _
      · intro n hn
        have : (quitDriver st).nextId = n := Except.ok.inj hn
        rw [hl0, this]
      · intro e he; simp at he

theorem runAcquisitions_inv (ws : List LaunchW) (st : EvasionState)
    (h : EvasionInv st) : EvasionInv (runAcquisitions ws st) := by
  induction ws generalizing st with
  | nil => exact h
  | cons w ws ih =>
    show EvasionInv (runAcquisitions ws (initialize_webdriver w st).1)
    exact ih _ (evasion_step st w h).1

/-- C8: under the session invariant (at most one live browser, referenced by
the `driver` field), one `initialize_webdriver` call preserves the invariant;
a successful call — in particular any second acquisition — leaves exactly the
newly launched browser open, the previously open one having been quit first;
a failed launch or failed stealth injection leaves no browser open at all;
and every call sequence starting from the fresh session keeps at most one
browser alive. -/
theorem c8_single_browser (st : EvasionState) (w : LaunchW)
    (hInv : EvasionInv st) :
    EvasionInv (initialize_webdriver w st).1 ∧
    (∀ n, (initialize_webdriver w st).2 = .ok n →
      (initialize_webdriver w st).1.live = [n]) ∧
    (∀ e, (initialize_webdriver w st).2 = .error e →
      (initialize_webdriver w st).1.live = []) ∧
    ∀ ws : List LaunchW,
      (runAcquisitions ws initEvasionState).live.length ≤ 1 := by
  obtain ⟨h1, h2, h3⟩ := evasion_step st w hInv
  refine ⟨h1, h2, h3, fun ws => ?_⟩
  exact (runAcquisitions_inv ws initEvasionState
    ⟨by simp [initEvasionState], by simp [initEvasionState],
      by simp [initEvasionState]⟩).1

/-- Closed instantiation of C8: a second successful acquisition after a first
one leaves exactly one (the new) browser open. -/
theorem c8_single_browser_witness :
    (initialize_webdriver ⟨.ok (), .ok ()⟩
      (initialize_webdriver ⟨.ok (), .ok ()⟩ initEvasionState).1).1.live =
      [1] :=
  (c8_single_browser
    (initialize_webdriver ⟨.ok (), .ok ()⟩ initEvasionState).1
    ⟨.ok (), .ok ()⟩
    ⟨by simp [initialize_webdriver, initEvasionState, quitDriver],
      by simp [initialize_webdriver, initEvasionState, quitDriver],
      by simp [initialize_webdriver, initEvasionState, quitDriver]⟩).2.1 1 rfl

/-! ## Claim C2: partial success at the orchestrating page -/

/-- C2: when metadata resolution succeeds, video and transcript are requested
(audio not), and video acquisition fails after exhausting its strategies, the
page still completes without a page-level failure: the transcript is shown,
the metadata record is persisted with no video path, and a notice for the
failed video download is recorded among the warnings. -/
theorem c2_partial_success (w : PageW) (url : String) (m : Meta) (e : String)
    (hurl : ¬url = "") (hm : w.videoInfo = .ok m) (hv : w.videoDl = .error e) :
    (content_scraping_page w url true false true).fatal = none ∧
    (content_scraping_page w url true false true).videoPath = none ∧
    (content_scraping_page w url true false true).transcriptShown =
      some w.transcript ∧
    (content_scraping_page w url true false true).savedMeta =
      some ⟨m, none, none, w.transcript ≠ []⟩ ∧
    ("Error downloading video: " ++ e) ∈
      (content_scraping_page w url true false true).warnings := by
  unfold content_scraping_page
  rw [if_neg hurl, hm]
  dsimp only
  rw [hv]
  dsimp only
  refine ⟨rfl, rfl, rfl, ?_, ?_⟩
  · cases hsave : w.saveOk <;> simp
  · cases hsave : w.saveOk <;> simp

/-- Closed instantiation of C2. -/
theorem c2_partial_success_witness :
    (content_scraping_page
      ⟨.ok ⟨"abcdefghijk", "Title", false⟩, .error "all strategies failed",
        false, false, .ok "x", false, false, [⟨"hello"⟩], .ok ()⟩
      "https://youtu.be/abcdefghijk" true false true).savedMeta =
      some ⟨⟨"abcdefghijk", "Title", false⟩, none, none, True⟩ := by
  have h := (c2_partial_success
    ⟨.ok ⟨"abcdefghijk", "Title", false⟩, .error "all strategies failed",
      false, false, .ok "x", false, false, [⟨"hello"⟩], .ok ()⟩
    "https://youtu.be/abcdefghijk" ⟨"abcdefghijk", "Title", false⟩
    "all strategies failed" (by decide) rfl rfl).2.2.2.1
  simpa using h

/-! ## Claim C10: the pytube audio transcoding frame effect -/

/-- C10: in the pytube audio strategy, when the downloaded stream file ends
in `.mp4` and transcoding succeeds, the original `.mp4` file is removed and
the `.mp3` path is returned; when transcoding fails, nothing is removed and
the original path is returned unchanged (and a non-`.mp4` download is also
returned unchanged). -/
theorem c10_audio_transcode_cleanup (w : PytubeAudioW) (p : String)
    (hsetup : w.setup = .ok ()) (hstream : w.streamQuery = .ok true)
    (hdl : w.download = .ok p)
    (hmp4 : endsWithSeq p.data ".mp4".data = true)
    (horig : w.origExists = true) :
    (w.conv = .ok () →
      pytube_audio w =
        (.ok (String.mk (replaceSeq ".mp4".data ".mp3".data p.data)), [p])) ∧
    ∀ e, w.conv = .error e → pytube_audio w = (.ok p, []) := by
  unfold pytube_audio
  rw [hsetup]
  dsimp only
  rw [hstream]
  dsimp only
  rw [hdl]
  dsimp only
  rw [if_pos hmp4]
  constructor
  · intro hconv
    rw [hconv]
    dsimp only
    rw [horig]
    rfl
  · intro e hconv
    rw [hconv]

/-- Closed instantiation of C10 at a concrete downloaded path. -/
theorem c10_audio_transcode_cleanup_witness :
    pytube_audio ⟨.ok (), .ok true, .ok "dl/abcdefghijk.mp4", .ok (), true⟩ =
      (.ok "dl/abcdefghijk.mp3", ["dl/abcdefghijk.mp4"]) := by
  have h := (c10_audio_transcode_cleanup
    ⟨.ok (), .ok true, .ok "dl/abcdefghijk.mp4", .ok (), true⟩
    "dl/abcdefghijk.mp4" rfl rfl rfl (by decide) rfl).1 rfl
  have h2 : String.mk
      (replaceSeq ".mp4".data ".mp3".data "dl/abcdefghijk.mp4".data) =
      "dl/abcdefghijk.mp3" := by
    have h3 : replaceSeq ".mp4".data ".mp3".data "dl/abcdefghijk.mp4".data =
        "dl/abcdefghijk.mp3".data := by
      simp +decide [replaceSeq, leadsWith, List.drop]
    rw [h3]
  rw [h2] at h
  exact h

/-! ## Claims C3 and C4: the video strategy chain -/

theorem videoMethod1_some (w : VideoWorld) (op vid p : String)
    (e1 : List String) (h : videoMethod1 w op vid = (some p, e1)) :
    (w.fileSize1 p).isSome = true := by
  unfold videoMethod1 at h
  repeat' split at h
  all_goals try simp_all
  all_goals (split at h <;> simp_all)

theorem videoMethod2_some (w : VideoWorld) (op vid p : String)
    (e2 : List String) (h : videoMethod2 w op vid = (some p, e2)) :
    ∃ files, w.selUI = .ok (some files) ∧
      files.filter (fun f =>
        endsWithSeq f.1.data ".mp4".data && decide (f.2 > 1000000)) ≠ [] := by
  unfold videoMethod2 at h
  rcases hI : w.selInit with eI | uI <;> rw [hI] at h <;> try dsimp only at h
  · simp at h
  rcases hN : w.selNav with eN | uN <;> rw [hN] at h <;> try dsimp only at h
  · simp at h
  rcases hU : w.selUI with eU | oU <;> rw [hU] at h <;> try dsimp only at h
  · simp at h
  cases oU with
  | none => simp at h
  | some files =>
    dsimp only at h
    cases hfil : files.filter (fun f =>
        endsWithSeq f.1.data ".mp4".data && decide (f.2 > 1000000)) with
    | nil => rw [hfil] at h; simp at h
    | cons a as => exact ⟨files, rfl, by rw [hfil]; simp⟩

theorem videoMethod3_some (w : VideoWorld) (p : String) (e3 : List String)
    (h : videoMethod3 w = (some p, e3)) :
    ∃ n, w.pyStream = .ok (some (p, some n)) ∧ 0 < n := by
  unfold videoMethod3 at h
  rcases hC : w.pyCtor with eC | uC <;> rw [hC] at h <;> try dsimp only at h
  · simp at h
  rcases hS : w.pyStream with eS | oS <;> rw [hS] at h <;> try dsimp only at h
  · simp at h
  cases oS with
  | none => simp at h
  | some ps =>
    rcases ps with ⟨q, sz⟩
    dsimp only at h
    cases sz with
    | none => simp at h
    | some n =>
      dsimp only at h
      by_cases hn : n > 0
      · rw [if_pos hn] at h
        have hqp : q = p := Option.some.inj (congrArg Prod.fst h)
        subst hqp
        exact ⟨n, rfl, hn⟩
      · rw [if_neg hn] at h
        simp at h

theorem videoMethod1_errors_len (w : VideoWorld) (op vid : String) :
    (videoMethod1 w op vid).2.length ≤ 1 := by
  unfold videoMethod1
  cases w.ytImport with
  | error e => simp
  | ok u =>
    try dsimp only
    cases w.ytInfo with
    | error e => simp
    | ok oi =>
      try dsimp only
      cases oi with
      | none => simp
      | some info =>
        try dsimp only
        cases hrd : info.requestedDownloads with
        | nil =>
          try dsimp only
          by_cases hc : (w.fileSize1
              (op ++ "/" ++ vid ++ "." ++ info.ext.getD "mp4")).isSome = true
          · rw [if_pos hc]; simp
          · rw [if_neg hc]; simp
        | cons p0 ps =>
          try dsimp only
          by_cases hc : (w.fileSize1 p0).isSome = true
          · rw [if_pos hc]; simp
          · rw [if_neg hc]; simp

theorem videoMethod2_errors_len (w : VideoWorld) (op vid : String) :
    (videoMethod2 w op vid).2.length ≤ 1 := by
  unfold videoMethod2
  cases w.selInit with
  | error e => simp
  | ok u =>
    try dsimp only
    cases w.selNav with
    | error e => simp
    | ok u2 =>
      try dsimp only
      cases w.selUI with
      | error e => simp
      | ok o =>
        try dsimp only
        cases o with
        | none => simp
        | some files =>
          try dsimp only
          cases files.filter (fun f =>
              endsWithSeq f.1.data ".mp4".data && decide (f.2 > 1000000)) with
          | nil => simp
          | cons a as => simp

theorem videoMethod3_errors_len (w : VideoWorld) :
    (videoMethod3 w).2.length ≤ 1 := by
  unfold videoMethod3
  cases w.pyCtor with
  | error e => simp
  | ok u =>
    try dsimp only
    cases w.pyStream with
    | error e => simp
    | ok o =>
      try dsimp only
      cases o with
      | none => simp
      | some ps =>
        rcases ps with ⟨q, sz⟩
        try dsimp only
        cases sz with
        | none => simp
        | some n =>
          try dsimp only
          by_cases hn : n > 0
          · rw [if_pos hn]; simp
          · rw [if_neg hn]; simp

/-- C3 counterexample: strategy 1 verifies only that the reported file
exists, not that it is non-empty — in a world where yt-dlp reports a file of
size zero, `download_video` returns that path as the chain's success, so
"verification = exists and non-zero size" does not hold for the first
strategy. -/
theorem c3_counterexample :
    (download_video
      ⟨"dl", .ok (), .ok (some ⟨["f.mp4"], none⟩),
        (fun p => if p = "f.mp4" then some 0 else none),
        .ok (), .ok (), .ok none, .ok (), .ok none, none⟩
      "abcdefghijk").outcome = .ok "f.mp4" ∧
    (download_video
      ⟨"dl", .ok (), .ok (some ⟨["f.mp4"], none⟩),
        (fun p => if p = "f.mp4" then some 0 else none),
        .ok (), .ok (), .ok none, .ok (), .ok none, none⟩
      "abcdefghijk").succeededVia = some Strategy.ytdlp ∧
    (fun p => if p = "f.mp4" then (some 0 : Option Nat) else none) "f.mp4" =
      some 0 :=
  ⟨rfl, rfl, rfl⟩

/-- C3 (amended): the strategies run in the fixed order yt-dlp, Selenium
relay, pytube, and the chain stops at the first strategy whose *own*
verification passes; but verification differs per strategy — existence of
the reported file for yt-dlp (size not checked), a directory entry ending in
`.mp4` of more than 1000000 bytes for the Selenium relay, and an existing
non-empty downloaded file for pytube.  No later strategy is entered after a
success: `tried` is always a prefix of the full order and equals the
strategies up to the succeeding one. -/
theorem c3_first_verified_success (w : VideoWorld) (url : String) :
    ((download_video w url).tried = [] ∨
      (download_video w url).tried = [Strategy.ytdlp] ∨
      (download_video w url).tried = [Strategy.ytdlp, Strategy.selenium] ∨
      (download_video w url).tried =
        [Strategy.ytdlp, Strategy.selenium, Strategy.pytube]) ∧
    ((download_video w url).succeededVia = some Strategy.ytdlp →
      (download_video w url).tried = [Strategy.ytdlp] ∧
      ∃ p, (download_video w url).outcome = .ok p ∧
        (w.fileSize1 p).isSome = true) ∧
    ((download_video w url).succeededVia = some Strategy.selenium →
      (download_video w url).tried = [Strategy.ytdlp, Strategy.selenium] ∧
      ∃ files, w.selUI = .ok (some files) ∧
        files.filter (fun f =>
          endsWithSeq f.1.data ".mp4".data && decide (f.2 > 1000000)) ≠ []) ∧
    ((download_video w url).succeededVia = some Strategy.pytube →
      (download_video w url).tried =
        [Strategy.ytdlp, Strategy.selenium, Strategy.pytube] ∧
      ∃ p n, (download_video w url).outcome = .ok p ∧
        w.pyStream = .ok (some (p, some n)) ∧ 0 < n) := by
  unfold download_video
  cases hx : extract_video_id url.data with
  | none => simp
  | some vidL =>
    dsimp only
    by_cases hne : vidL = []
    · rw [if_pos hne]
      simp
    · rw [if_neg hne]
      rcases hm1 : videoMethod1 w (w.downloadPath ++ "/" ++ String.mk vidL)
          (String.mk vidL) with ⟨o1, e1⟩
      cases o1 with
      | some p =>
        dsimp only
        refine ⟨by simp, fun _ => ⟨rfl, p, rfl, videoMethod1_some w _ _ p e1 hm1⟩,
          fun h => by simp at h, fun h => by simp at h⟩
      | none =>
        dsimp only
        rcases hm2 : videoMethod2 w (w.downloadPath ++ "/" ++ String.mk vidL)
            (String.mk vidL) with ⟨o2, e2⟩
        cases o2 with
        | some p =>
          dsimp only
          refine ⟨by simp, fun h => by simp at h,
            fun _ => ⟨rfl, videoMethod2_some w _ _ p e2 hm2⟩,
            fun h => by simp at h⟩
        | none =>
          dsimp only
          rcases hm3 : videoMethod3 w with ⟨o3, e3⟩
          cases o3 with
          | some p =>
            dsimp only
            refine ⟨by simp, fun h => by simp at h, fun h => by simp at h,
              fun _ => ⟨rfl, p, ?_⟩⟩
            obtain ⟨n, hn, hn0⟩ := videoMethod3_some w p e3 hm3
            exact ⟨n, rfl, hn, hn0⟩
          | none =>
            cases hf : w.finalSize with
            | none =>
              dsimp only
              refine ⟨by simp, fun h => by simp at h, fun h => by simp at h,
                fun h => by simp at h⟩
            | some n =>
              dsimp only
              by_cases hn : n = 0
              · rw [if_pos hn]
                refine ⟨by simp, fun h => by simp at h, fun h => by simp at h,
                  fun h => by simp at h⟩
              · rw [if_neg hn]
                refine ⟨by simp, fun h => by simp at h, fun h => by simp at h,
                  fun h => by simp at h⟩

/-- Closed instantiation of the amended C3: yt-dlp succeeds with an existing
file, only strategy 1 is tried, and the returned path passed the existence
check. -/
theorem c3_first_verified_success_witness :
    (download_video
      ⟨"dl", .ok (), .ok (some ⟨["p.mp4"], none⟩),
        (fun p => if p = "p.mp4" then some 5 else none),
        .ok (), .ok (), .ok none, .ok (), .ok none, none⟩
      "abcdefghijk").tried = [Strategy.ytdlp] ∧
    ∃ p, (download_video
      ⟨"dl", .ok (), .ok (some ⟨["p.mp4"], none⟩),
        (fun p => if p = "p.mp4" then some 5 else none),
        .ok (), .ok (), .ok none, .ok (), .ok none, none⟩
      "abcdefghijk").outcome = .ok p ∧
      ((fun p => if p = "p.mp4" then (some 5 : Option Nat) else none) p).isSome
        = true :=
  (c3_first_verified_success
    ⟨"dl", .ok (), .ok (some ⟨["p.mp4"], none⟩),
      (fun p => if p = "p.mp4" then some 5 else none),
      .ok (), .ok (), .ok none, .ok (), .ok none, none⟩
    "abcdefghijk").2.1 rfl

/-- C4 counterexample: with yt-dlp failing at `extract_info`, the Selenium
strategy failing inside its UI block (caught at line 645 and only logged),
and pytube finding no stream (no exception at all), all three strategies are
attempted and the chain raises — but the attempt log contains a single entry,
not three, so the log length does not equal the number of strategies
attempted. -/
theorem c4_counterexample :
    (download_video
      ⟨"dl", .ok (), .error "boom1", (fun _ => none),
        .ok (), .ok (), .error "boom2", .ok (), .ok none, none⟩
      "abcdefghijk").tried =
      [Strategy.ytdlp, Strategy.selenium, Strategy.pytube] ∧
    (download_video
      ⟨"dl", .ok (), .error "boom1", (fun _ => none),
        .ok (), .ok (), .error "boom2", .ok (), .ok none, none⟩
      "abcdefghijk").errors = ["yt-dlp method failed: boom1"] ∧
    ∃ e, (download_video
      ⟨"dl", .ok (), .error "boom1", (fun _ => none),
        .ok (), .ok (), .error "boom2", .ok (), .ok none, none⟩
      "abcdefghijk").outcome = .error e :=
  ⟨rfl, rfl, ⟨_, rfl⟩⟩

/-- C4 (amended): when every strategy fails and the final output check fails,
the chain still tries all three strategies in order (no failure aborts it)
and raises an aggregated failure whose message carries the accumulated error
texts; but only failures escaping each strategy's outer handler are appended
— a Selenium failure inside the UI block and a pytube run that simply finds
no stream append nothing — so the log concatenates at most one entry per
strategy and can be shorter than the number of strategies attempted. -/
theorem c4_attempt_log_amended (w : VideoWorld) (url vid op : String)
    (vidL : List Char)
    (hx : extract_video_id url.data = some vidL) (hne : ¬vidL = [])
    (hvid : vid = String.mk vidL)
    (hop : op = w.downloadPath ++ "/" ++ vid)
    (h1 : (videoMethod1 w op vid).1 = none)
    (h2 : (videoMethod2 w op vid).1 = none)
    (h3 : (videoMethod3 w).1 = none)
    (hf : w.finalSize = none ∨ w.finalSize = some 0) :
    (download_video w url).tried =
      [Strategy.ytdlp, Strategy.selenium, Strategy.pytube] ∧
    (download_video w url).errors =
      (videoMethod1 w op vid).2 ++ (videoMethod2 w op vid).2 ++
        (videoMethod3 w).2 ∧
    (download_video w url).outcome =
      .error (aggregatedMsg ((videoMethod1 w op vid).2 ++
        (videoMethod2 w op vid).2 ++ (videoMethod3 w).2)) ∧
    (∀ e, w.selInit = .ok () → w.selNav = .ok () → w.selUI = .error e →
      (videoMethod2 w op vid).2 = []) ∧
    (w.pyCtor = .ok () → w.pyStream = .ok none → (videoMethod3 w).2 = []) ∧
    (videoMethod1 w op vid).2.length ≤ 1 ∧
    (videoMethod2 w op vid).2.length ≤ 1 ∧
    (videoMethod3 w).2.length ≤ 1 := by
  subst hvid
  subst hop
  have hmain : (download_video w url).tried =
        [Strategy.ytdlp, Strategy.selenium, Strategy.pytube] ∧
      (download_video w url).errors =
        (videoMethod1 w (w.downloadPath ++ "/" ++ String.mk vidL)
            (String.mk vidL)).2 ++
          (videoMethod2 w (w.downloadPath ++ "/" ++ String.mk vidL)
            (String.mk vidL)).2 ++ (videoMethod3 w).2 ∧
      (download_video w url).outcome =
        .error (aggregatedMsg
          ((videoMethod1 w (w.downloadPath ++ "/" ++ String.mk vidL)
              (String.mk vidL)).2 ++
            (videoMethod2 w (w.downloadPath ++ "/" ++ String.mk vidL)
              (String.mk vidL)).2 ++ (videoMethod3 w).2)) := by
    unfold download_video
    rw [hx]
    dsimp only
    rw [if_neg hne]
    rcases hm1 : videoMethod1 w (w.downloadPath ++ "/" ++ String.mk vidL)
        (String.mk vidL) with ⟨o1, e1⟩
    cases o1 with
    | some p => rw [hm1] at h1; simp at h1
    | none =>
      dsimp only
      rcases hm2 : videoMethod2 w (w.downloadPath ++ "/" ++ String.mk vidL)
          (String.mk vidL) with ⟨o2, e2⟩
      cases o2 with
      | some p => rw [hm2] at h2; simp at h2
      | none =>
        dsimp only
        rcases hm3 : videoMethod3 w with ⟨o3, e3⟩
        cases o3 with
        | some p => rw [hm3] at h3; simp at h3
        | none =>
          rcases hf with hf | hf <;> rw [hf] <;> dsimp only
          · exact ⟨rfl, rfl, rfl⟩
          · rw [if_pos rfl]
            exact ⟨rfl, rfl, rfl⟩
  refine ⟨hmain.1, hmain.2.1, hmain.2.2, ?_, ?_, ?_, ?_, ?_⟩
  · intro e hi hn hui
    unfold videoMethod2
    rw [hi, hn, hui]
  · intro hc hs
    unfold videoMethod3
    rw [hc, hs]
  · exact videoMethod1_errors_len w _ _
  · exact videoMethod2_errors_len w _ _
  · exact videoMethod3_errors_len w

/-- Closed instantiation of the amended C4 at the counterexample world: all
three strategies attempted, one logged entry. -/
theorem c4_attempt_log_amended_witness :
    (download_video
      ⟨"dl", .ok (), .error "boom1", (fun _ => none),
        .ok (), .ok (), .error "boom2", .ok (), .ok none, none⟩
      "abcdefghijk").tried =
      [Strategy.ytdlp, Strategy.selenium, Strategy.pytube] :=
  (c4_attempt_log_amended
    ⟨"dl", .ok (), .error "boom1", (fun _ => none),
      .ok (), .ok (), .error "boom2", .ok (), .ok none, none⟩
    "abcdefghijk" "abcdefghijk" "dl/abcdefghijk" "abcdefghijk".data
    (by decide) (by decide) rfl rfl rfl rfl rfl (Or.inl rfl)).1

end App
